import Mathlib

/-!
Shallow embedding of the NANDA Node SDK core (message-improver registry,
conversation store, orchestrator, registry client) and proofs of the
specification claims about it.

Strings are modelled as Lean strings; the JavaScript string primitives used
by the source (trim, charAt(0).toUpperCase() + slice(1), the terminal
punctuation regex test, word-boundary replacement) are embedded as explicit
functions over the character list. Timestamps (new Date()) are modelled as
natural numbers passed in by the caller. A JavaScript value thrown by a
user transform is modelled by ThrownValue: an Error object carrying a
message, or a non-Error value.
-/

namespace NandaSdk

/-- Embedding of JavaScript String.prototype.trim over the common ASCII
whitespace characters: drop whitespace from both ends. -/
def jsTrim (s : String) : String :=
  ⟨((s.data.dropWhile Char.isWhitespace).reverse.dropWhile Char.isWhitespace).reverse⟩

/-- Embedding of the source idiom message.charAt(0).toUpperCase() + message.slice(1):
uppercase the first character, keep the rest. On the empty string this is the
empty string. -/
def capitalizeFirst (s : String) : String :=
  match s.data with
  | [] => s
  | c :: cs => ⟨c.toUpper :: cs⟩

/-- Embedding of the regex test /[.!?]$/ used by the seed transforms. -/
def endsWithTerminalPunct (s : String) : Bool :=
  match s.data.getLast? with
  | some c => c == '.' || c == '!' || c == '?'
  | Option.none => false

/-- JavaScript word character class (backslash-w): letters, digits, underscore. -/
def isWordChar (c : Char) : Bool :=
  c.isAlpha || c.isDigit || c == '_'

/-- Split a character list into maximal runs, each tagged with whether it is a
run of word characters; used to embed word-boundary regex replacement. -/
def splitRuns : List Char → List (Bool × List Char)
  | [] => []
  | c :: cs =>
    match splitRuns cs with
    | (b, run) :: rest =>
      if isWordChar c == b then (b, c :: run) :: rest
      else (isWordChar c, [c]) :: (b, run) :: rest
    | [] => [(isWordChar c, [c])]

/-- Embedding of improved.replace(new RegExp(backslash-b + informal + backslash-b, "gi"), formal)
for a purely word-character pattern: every whole word equal to the pattern up to
ASCII case is replaced by the formal text. -/
def replaceWordAll (s informal formal : String) : String :=
  ⟨(splitRuns s.data).foldr
    (fun run acc =>
      if run.1 && (run.2.map Char.toLower == informal.data.map Char.toLower)
      then formal.data ++ acc
      else run.2 ++ acc) []⟩

/-- Embedding of s.toLowerCase() over ASCII. -/
def jsToLower (s : String) : String := ⟨s.data.map Char.toLower⟩

/-- Decide whether pat occurs as a contiguous substring of s, embedding
String.prototype.includes. -/
def startsWithChars : List Char → List Char → Bool
  | _, [] => true
  | [], _ :: _ => false
  | a :: as, b :: bs => a == b && startsWithChars as bs

/-- Helper for jsIncludes: scan every suffix. -/
def hasSubstrAux : List Char → List Char → Bool
  | [], pat => pat.isEmpty
  | c :: rest, pat => startsWithChars (c :: rest) pat || hasSubstrAux rest pat

/-- Embedding of String.prototype.includes. -/
def jsIncludes (s pat : String) : Bool := hasSubstrAux s.data pat.data

/-- Embedding of improved.replace(/\.$/, "!"): replace a trailing period by an
exclamation mark, otherwise leave the string unchanged. -/
def replaceTrailingDotWithBang (s : String) : String :=
  match s.data.getLast? with
  | some c => if c == '.' then ⟨s.data.dropLast ++ ['!']⟩ else s
  | Option.none => s

/-- Role of a message author. -/
inductive Role
  | user
  | assistant
  | system
deriving DecidableEq, Repr

/-- Kind of a message content block. -/
inductive ContentType
  | text
  | image
  | file
deriving DecidableEq, Repr

/-- One content block of a message. -/
structure ContentBlock where
  type : ContentType
  content : String
deriving DecidableEq, Repr

/-- A message as received by the orchestrator. -/
structure Message where
  id : String
  role : Role
  content : List ContentBlock
  timestamp : Nat
  conversationId : String
deriving DecidableEq, Repr

/-- The context object the orchestrator passes to a transform. -/
structure ImproveContext where
  conversationId : String
  messageId : String
  role : Role
deriving DecidableEq, Repr

/-- A JavaScript value thrown by a user transform: an Error object with a
message, or any non-Error value. -/
inductive ThrownValue
  | errorObj (message : String)
  | nonError
deriving DecidableEq, Repr

/-- Embedding of the source expression
error instanceof Error ? error.message : "Unknown error". -/
def thrownMessage : ThrownValue → String
  | ThrownValue.errorObj m => m
  | ThrownValue.nonError => "Unknown error"

/-- A registered transform: from the message text and optional context to
either a result string or a thrown value. -/
def Transform : Type := String → Option ImproveContext → Except ThrownValue String

/-- The improvementType field of a result. -/
inductive ImprovementType
  | default
  | custom
  | none
deriving DecidableEq, Repr

/-- The metadata object attached to a result: an error record, a success
record naming the improver and echoing the context, or the skip record
produced by processMessage when improvement is disabled. -/
inductive ResultMetadata
  | err (error : String)
  | applied (improver : String) (context : Option ImproveContext)
  | skipped (messageId : String) (conversationId : String)
deriving DecidableEq, Repr

/-- Read the error field of a metadata object, when present. -/
def metadataError : ResultMetadata → Option String
  | ResultMetadata.err e => some e
  | _ => Option.none

/-- The result envelope returned by improve, improveWith and processMessage. -/
structure MessageImprovementResult where
  originalMessage : String
  improvedMessage : String
  improvementType : ImprovementType
  metadata : ResultMetadata
deriving DecidableEq, Repr

/-- Lookup in the name-to-transform association list, embedding
this.improvers[name]. -/
def getT : List (String × Transform) → String → Option Transform
  | [], _ => Option.none
  | p :: rest, name => if p.1 == name then some p.2 else getT rest name

/-- Key assignment this.improvers[name] = fn: replace in place when the key
exists, append otherwise (JavaScript object key order). -/
def setEntry : List (String × Transform) → String → Transform → List (String × Transform)
  | [], name, f => [(name, f)]
  | p :: rest, name, f =>
    if p.1 == name then (name, f) :: rest else p :: setEntry rest name f

/-- Key deletion, embedding delete this.improvers[name]: keep exactly the
entries whose key differs. -/
def delEntry : List (String × Transform) → String → List (String × Transform)
  | [], _ => []
  | p :: rest, name =>
    if p.1 != name then p :: delEntry rest name else delEntry rest name

/-- Key membership, embedding name in this.improvers. -/
def hasKey (l : List (String × Transform)) (name : String) : Bool :=
  l.any (fun p => p.1 == name)

/-- Body of the built-in "default" transform: trim, early-return on empty,
capitalize, append a period when no terminal punctuation is present. -/
def defaultBody (message : String) : String :=
  let improved := jsTrim message
  if improved.length == 0 then improved
  else
    let improved := capitalizeFirst improved
    if endsWithTerminalPunct improved then improved else improved ++ "."

/-- The informal-to-formal replacement table of the "professional" seed, in
source insertion order. -/
def professionalReplacements : List (String × String) :=
  [("hi", "Hello"), ("hey", "Hello"), ("thanks", "Thank you"), ("thx", "Thank you"),
   ("u", "you"), ("ur", "your"), ("r", "are"), ("btw", "by the way"),
   ("asap", "as soon as possible"), ("fyi", "for your information")]

/-- Body of the "professional" seed transform: trim, early-return on empty,
capitalize, apply the word replacements in order, append a period when no
terminal punctuation is present. -/
def professionalBody (message : String) : String :=
  let improved := jsTrim message
  if improved.length == 0 then improved
  else
    let improved := capitalizeFirst improved
    let improved := professionalReplacements.foldl
      (fun acc p => replaceWordAll acc p.1 p.2) improved
    if endsWithTerminalPunct improved then improved else improved ++ "."

/-- The engaging starters of the "creative" seed. -/
def engagingStarters : List String :=
  ["Exciting news: ", "Here\x27s something interesting: ", "You won\x27t believe this: ",
   "Get ready for: ", "Amazing discovery: "]

/-- Body of the "creative" seed transform. The Math.random draw that picks a
starter is made explicit as the randIdx parameter (the source computes
Math.floor(Math.random() * 5), a value in 0..4). -/
def creativeBody (randIdx : Fin 5) (message : String) : String :=
  let improved := jsTrim message
  if improved.length == 0 then improved
  else
    let improved := capitalizeFirst improved
    let improved :=
      if improved.length < 100 && !(jsIncludes improved ":")
      then (engagingStarters.getD randIdx.1 "") ++ improved
      else improved
    let improved :=
      if jsIncludes (jsToLower improved) "amazing" ||
         jsIncludes (jsToLower improved) "exciting" ||
         jsIncludes (jsToLower improved) "incredible"
      then replaceTrailingDotWithBang improved
      else improved
    if endsWithTerminalPunct improved then improved else improved ++ "."

/-- The registered "default" transform; it never throws. -/
def defaultTransform : Transform := fun message _ => Except.ok (defaultBody message)

/-- The registered "professional" transform; it never throws. -/
def professionalTransform : Transform := fun message _ => Except.ok (professionalBody message)

/-- The registered "creative" transform, with its random draw fixed to index 0;
no claim depends on the randomized branch of the registered singleton. -/
def creativeTransform : Transform := fun message _ => Except.ok (creativeBody 0 message)

/-- State of the MessageImprover class: the name-to-transform registry and the
active improver name. -/
structure MessageImprover where
  improvers : List (String × Transform)
  activeImprover : String

/-- Registry method register(name, improver): insert or overwrite. -/
def MessageImprover.register (s : MessageImprover) (name : String) (f : Transform) :
    MessageImprover :=
  { s with improvers := setEntry s.improvers name f }

/-- Registry method setActive(name): fails and leaves state unchanged when the
name is not registered, otherwise sets the active name. -/
def MessageImprover.setActive (s : MessageImprover) (name : String) :
    Bool × MessageImprover :=
  if hasKey s.improvers name then (true, { s with activeImprover := name })
  else (false, s)

/-- Registry method getActive(). -/
def MessageImprover.getActive (s : MessageImprover) : String := s.activeImprover

/-- Registry method list(): Object.keys in insertion order. -/
def MessageImprover.list (s : MessageImprover) : List String :=
  s.improvers.map (fun p => p.1)

/-- Registry method exists(name). -/
def MessageImprover.existsB (s : MessageImprover) (name : String) : Bool :=
  hasKey s.improvers name

/-- Registry method remove(name): protected no-op failure on "default";
otherwise resets the active name to "default" when the removed name was
active, deletes the entry, and returns true. -/
def MessageImprover.remove (s : MessageImprover) (name : String) :
    Bool × MessageImprover :=
  if name == "default" then (false, s)
  else
    let s := if s.activeImprover == name then { s with activeImprover := "default" } else s
    (true, { s with improvers := delEntry s.improvers name })

/-- Registry method improveWith(name, message, context): resolve the name
explicitly; a missing name or a thrown transform is converted into a
result with improvementType none, the original text and a metadata error;
the registry state is returned unchanged (the method body contains no
assignment). Totality of this function embeds the never-throws guarantee. -/
def MessageImprover.improveWith (s : MessageImprover) (name message : String)
    (context : Option ImproveContext) : MessageImprovementResult × MessageImprover :=
  match getT s.improvers name with
  | Option.none =>
    ({ originalMessage := message, improvedMessage := message,
       improvementType := ImprovementType.none,
       metadata := ResultMetadata.err "Improver not found" }, s)
  | some f =>
    match f message context with
    | Except.ok improvedMessage =>
      ({ originalMessage := message, improvedMessage := improvedMessage,
         improvementType := if name == "default" then ImprovementType.default
                            else ImprovementType.custom,
         metadata := ResultMetadata.applied name context }, s)
    | Except.error e =>
      ({ originalMessage := message, improvedMessage := message,
         improvementType := ImprovementType.none,
         metadata := ResultMetadata.err (thrownMessage e) }, s)

/-- Registry method improve(message, context): like improveWith, resolving the
current active name. -/
def MessageImprover.improve (s : MessageImprover) (message : String)
    (context : Option ImproveContext) : MessageImprovementResult × MessageImprover :=
  match getT s.improvers s.activeImprover with
  | Option.none =>
    ({ originalMessage := message, improvedMessage := message,
       improvementType := ImprovementType.none,
       metadata := ResultMetadata.err "Improver not found" }, s)
  | some f =>
    match f message context with
    | Except.ok improvedMessage =>
      ({ originalMessage := message, improvedMessage := improvedMessage,
         improvementType := if s.activeImprover == "default" then ImprovementType.default
                            else ImprovementType.custom,
         metadata := ResultMetadata.applied s.activeImprover context }, s)
    | Except.error e =>
      ({ originalMessage := message, improvedMessage := message,
         improvementType := ImprovementType.none,
         metadata := ResultMetadata.err (thrownMessage e) }, s)

/-- State produced by the MessageImprover constructor: empty registry, active
name "default", then registerDefaultImprovers registers the three seeds in
order. -/
def MessageImprover.new : MessageImprover :=
  ((({ improvers := [], activeImprover := "default" } : MessageImprover).register
      "default" defaultTransform).register
      "professional" professionalTransform).register
      "creative" creativeTransform

/-- A conversation in the in-memory conversation store. -/
structure Conversation where
  id : String
  messages : List Message
  createdAt : Nat
  updatedAt : Nat
deriving DecidableEq, Repr

/-- Lookup in the conversation map, embedding this.conversations.get(id). -/
def getConv : List (String × Conversation) → String → Option Conversation
  | [], _ => Option.none
  | p :: rest, cid => if p.1 == cid then some p.2 else getConv rest cid

/-- Map assignment this.conversations.set(id, conversation): replace in place
when the key exists, append otherwise (Map insertion order). -/
def setConv : List (String × Conversation) → String → Conversation →
    List (String × Conversation)
  | [], cid, c => [(cid, c)]
  | p :: rest, cid, c =>
    if p.1 == cid then (cid, c) :: rest else p :: setConv rest cid c

/-- State of the RegistryClient that matters to the core: the isRegistered
flag. -/
structure RegistryClient where
  isRegistered : Bool
deriving DecidableEq, Repr

/-- Outcome of the axios.post call made by RegistryClient.register: either a
resolved response carrying an HTTP status (validateStatus resolves statuses
below 500), or a rejection carrying the thrown value (connection errors,
5xx responses, timeouts). -/
inductive AxiosOutcome
  | response (status : Nat)
  | failure (thrown : ThrownValue)
deriving DecidableEq, Repr

/-- RegistryClient.register: on a resolved status 200 sets isRegistered and
returns true; on any other resolved status returns false leaving the flag
alone; every rejection is caught, clears the flag and returns false. The
function is total: no outcome propagates as an exception. -/
def RegistryClient.register (rc : RegistryClient) (net : AxiosOutcome) :
    Bool × RegistryClient :=
  match net with
  | AxiosOutcome.response status =>
    if status == 200 then (true, { isRegistered := true }) else (false, rc)
  | AxiosOutcome.failure _ => (false, { isRegistered := false })

/-- Options accepted by processMessage. improveMessage is compared strictly
against false in the source, so only an explicit false skips improvement. -/
structure MessageProcessingOptions where
  improveMessage : Option Bool
  improverName : Option String
deriving DecidableEq, Repr

/-- Embedding of the JavaScript expression v || dflt for strings: an absent or
empty (falsy) value falls back to the default. -/
def jsStringOr (v : Option String) (dflt : String) : String :=
  match v with
  | some s => if s == "" then dflt else s
  | Option.none => dflt

/-- State of the NANDA orchestrator: the conversation store, the message
counter, the running flag, the (singleton) message improver it uses and its
registry client. -/
structure NANDA where
  conversations : List (String × Conversation)
  messageCount : Nat
  isRunning : Bool
  improver : MessageImprover
  registryClient : RegistryClient

/-- NANDA.storeMessage: look up the conversation; when absent create it with
an empty message list and createdAt = updatedAt = now; append the message
and refresh updatedAt. The timestamp now stands for new Date(). -/
def NANDA.storeMessage (st : NANDA) (m : Message) (now : Nat) : NANDA :=
  let conv :=
    match getConv st.conversations m.conversationId with
    | some c => c
    | Option.none =>
      { id := m.conversationId, messages := [], createdAt := now, updatedAt := now }
  let conv := { conv with messages := conv.messages ++ [m], updatedAt := now }
  { st with conversations := setConv st.conversations m.conversationId conv }

/-- NANDA.processMessage: increment the message counter, store the message,
then either run the resolved transform through improveWith (with the
orchestrator context) or, when options.improveMessage is explicitly false,
return a skip result. The text is content[0]?.content || "". -/
def NANDA.processMessage (st : NANDA) (m : Message)
    (opts : MessageProcessingOptions) (now : Nat) :
    MessageImprovementResult × NANDA :=
  let st := { st with messageCount := st.messageCount + 1 }
  let st := st.storeMessage m now
  let text := jsStringOr (m.content.head?.map (fun b => b.content)) ""
  if opts.improveMessage != some false then
    let improverName := jsStringOr opts.improverName st.improver.getActive
    let r := st.improver.improveWith improverName text
      (some { conversationId := m.conversationId, messageId := m.id, role := m.role })
    (r.1, st)
  else
    ({ originalMessage := text, improvedMessage := text,
       improvementType := ImprovementType.none,
       metadata := ResultMetadata.skipped m.id m.conversationId }, st)

/-- NANDA.start: awaits the agent bridge start, the api server start and the
registry registration, then sets isRunning. The two collaborator outcomes
are passed in; a rejection of either propagates (the try block rethrows).
RegistryClient.register returns a boolean for every outcome, so the
registration step can never make start reject. -/
def NANDA.start (st : NANDA) (bridgeStart apiStart : Except ThrownValue Unit)
    (net : AxiosOutcome) : Except ThrownValue NANDA :=
  match bridgeStart with
  | Except.error e => Except.error e
  | Except.ok _ =>
    match apiStart with
    | Except.error e => Except.error e
    | Except.ok _ =>
      let r := st.registryClient.register net
      Except.ok { st with registryClient := r.2, isRunning := true }

/-- A transform used in concrete instantiations: uppercase the whole text. -/
def upperT : Transform := fun msg _ => Except.ok (String.map Char.toUpper msg)

/-- A transform that throws an Error with message "boom". -/
def boomT : Transform := fun _ _ => Except.error (ThrownValue.errorObj "boom")

/-- A transform that throws an Error whose message is the empty string. -/
def throwEmptyT : Transform := fun _ _ => Except.error (ThrownValue.errorObj "")

theorem hasKey_setEntry (l : List (String × Transform)) (n m : String) (f : Transform) :
    hasKey (setEntry l n f) m = (hasKey l m || n == m) := by
  induction l with
  | nil => simp [hasKey, setEntry]
  | cons p rest ih =>
    by_cases hpn : p.1 = n
    · simp [setEntry, hasKey, List.any_cons, hpn]
      cases hnm : n == m <;> simp_all
    · simp only [setEntry, hasKey, List.any_cons] at *
      simp [hpn, ih]
      cases hpm : p.1 == m <;> simp_all

theorem hasKey_delEntry (l : List (String × Transform)) (n m : String) :
    hasKey (delEntry l n) m = (hasKey l m && !(m == n)) := by
  induction l with
  | nil => simp [hasKey, delEntry]
  | cons p rest ih =>
    simp only [delEntry, hasKey, List.any_cons] at ih ⊢
    by_cases hpn : p.1 = n
    · have h1 : (p.1 != n) = false := by simp [hpn]
      rw [h1]
      by_cases hpm : p.1 = m
      · have hmn : (m == n) = true := by
          have hmn' : m = n := by rw [← hpm, hpn]
          simp [hmn']
        simp only [Bool.false_eq_true, if_false, ih, hmn]
        simp
      · have hpm' : (p.1 == m) = false := by simp [hpm]
        simp only [Bool.false_eq_true, if_false, ih, hpm']
        simp
    · have h1 : (p.1 != n) = true := by simp [hpn]
      rw [h1]
      by_cases hpm : p.1 = m
      · have hmn : (m == n) = false := by
          have hmn' : m ≠ n := by rw [← hpm]; exact hpn
          simp [hmn']
        have hpm' : (p.1 == m) = true := by simp [hpm]
        simp only [if_true, List.any_cons, ih, hpm', hmn]
        simp
      · have hpm' : (p.1 == m) = false := by simp [hpm]
        simp only [if_true, List.any_cons, ih, hpm']
        simp

theorem hasKey_delEntry_self (l : List (String × Transform)) (n : String) :
    hasKey (delEntry l n) n = false := by
  simp [hasKey_delEntry]

theorem hasKey_delEntry_of_ne (l : List (String × Transform)) (n m : String)
    (hne : m ≠ n) (h : hasKey l m = true) : hasKey (delEntry l n) m = true := by
  simp [hasKey_delEntry, h, hne]

theorem getT_eq_none_of_hasKey_eq_false (l : List (String × Transform)) (n : String)
    (h : hasKey l n = false) : getT l n = Option.none := by
  induction l with
  | nil => rfl
  | cons p rest ih =>
    simp only [hasKey, List.any_cons, Bool.or_eq_false_iff] at h
    simp [getT, h.1, ih (by simp [hasKey, h.2])]

/-- C1, as stated, is false: for a name other than "default" the source
returns true unconditionally, even when no entry with that name existed.
Concretely, on the freshly constructed registry remove("nope") returns true
although exists("nope") is false. -/
theorem claim1_counterexample :
    ¬ (((MessageImprover.new.remove "nope").1 = true) ↔
        MessageImprover.new.existsB "nope" = true) := by decide

/-- C1 amended: remove("default") always returns false and leaves the whole
registry state unchanged (so "default" remains in list()); for every other
name, remove returns true unconditionally, and afterwards no entry with
that name exists. -/
theorem claim1_remove_semantics (s : MessageImprover) (name : String)
    (h : name ≠ "default") :
    s.remove "default" = (false, s) ∧
    ((s.remove "default").2).list = s.list ∧
    (s.remove name).1 = true ∧
    ((s.remove name).2).existsB name = false := by
  have hb : (name == "default") = false := by simp [h]
  refine ⟨rfl, rfl, ?_, ?_⟩
  · simp [MessageImprover.remove, hb]
  · simp only [MessageImprover.remove, hb, Bool.false_eq_true, if_false,
      MessageImprover.existsB]
    split <;> exact hasKey_delEntry_self _ _

/-- Witness for C1 at the freshly constructed registry and the registered
name "professional". -/
theorem claim1_witness :
    MessageImprover.new.remove "default" = (false, MessageImprover.new) ∧
    ((MessageImprover.new.remove "default").2).list = MessageImprover.new.list ∧
    (MessageImprover.new.remove "professional").1 = true ∧
    ((MessageImprover.new.remove "professional").2).existsB "professional" = false :=
  claim1_remove_semantics MessageImprover.new "professional" (by decide)

/-- C9: setActive(n) on a registered name returns true and makes getActive()
report n; on an unregistered name it returns false and getActive() is
unchanged. -/
theorem claim9_setActive_contract (s : MessageImprover) (n : String) :
    (s.existsB n = true →
      (s.setActive n).1 = true ∧ ((s.setActive n).2).getActive = n) ∧
    (s.existsB n = false →
      (s.setActive n).1 = false ∧ ((s.setActive n).2).getActive = s.getActive) := by
  constructor <;> intro h <;>
    simp [MessageImprover.setActive, MessageImprover.getActive,
      MessageImprover.existsB] at * <;> simp [h]

/-- Witness for C9: the registered name "creative" and the unregistered name
"shout" on the freshly constructed registry. -/
theorem claim9_witness :
    ((MessageImprover.new.setActive "creative").1 = true ∧
      ((MessageImprover.new.setActive "creative").2).getActive = "creative") ∧
    ((MessageImprover.new.setActive "shout").1 = false ∧
      ((MessageImprover.new.setActive "shout").2).getActive =
        MessageImprover.new.getActive) :=
  ⟨(claim9_setActive_contract MessageImprover.new "creative").1 (by decide),
   (claim9_setActive_contract MessageImprover.new "shout").2 (by decide)⟩

/-- C3: improveWith on an unregistered name returns the original text as both
fields, improvementType none and metadata.error "Improver not found", and
the registry state (in particular the active name) is returned unchanged;
the function is total, so no exception is possible. -/
theorem claim3_improveWith_unregistered (s : MessageImprover) (name t : String)
    (ctx : Option ImproveContext) (h : s.existsB name = false) :
    s.improveWith name t ctx =
      ({ originalMessage := t, improvedMessage := t,
         improvementType := ImprovementType.none,
         metadata := ResultMetadata.err "Improver not found" }, s) ∧
    metadataError (s.improveWith name t ctx).1.metadata = some "Improver not found" ∧
    ((s.improveWith name t ctx).2).getActive = s.getActive := by
  have hg : getT s.improvers name = Option.none :=
    getT_eq_none_of_hasKey_eq_false _ _ h
  refine ⟨?_, ?_, ?_⟩ <;> simp [MessageImprover.improveWith, hg, metadataError]

/-- Witness for C3: the unregistered name "zzz" on the freshly constructed
registry, with text "hello". -/
theorem claim3_witness :
    MessageImprover.new.improveWith "zzz" "hello" Option.none =
      ({ originalMessage := "hello", improvedMessage := "hello",
         improvementType := ImprovementType.none,
         metadata := ResultMetadata.err "Improver not found" }, MessageImprover.new) ∧
    metadataError (MessageImprover.new.improveWith "zzz" "hello" Option.none).1.metadata =
      some "Improver not found" ∧
    ((MessageImprover.new.improveWith "zzz" "hello" Option.none).2).getActive =
      MessageImprover.new.getActive :=
  claim3_improveWith_unregistered MessageImprover.new "zzz" "hello" Option.none (by decide)

/-- C2, as stated, is false on one boundary: a transform that throws an Error
whose message is the empty string yields metadata.error = "", which is not
non-empty. Every other part of the claim holds at this input: the type is
none, the text is returned unchanged, and nothing propagates. -/
theorem claim2_counterexample :
    ((MessageImprover.new.register "bad0" throwEmptyT).improveWith
        "bad0" "x" Option.none).1.improvementType = ImprovementType.none ∧
    ((MessageImprover.new.register "bad0" throwEmptyT).improveWith
        "bad0" "x" Option.none).1.improvedMessage = "x" ∧
    metadataError (((MessageImprover.new.register "bad0" throwEmptyT).improveWith
        "bad0" "x" Option.none).1).metadata = some "" :=
  ⟨rfl, rfl, rfl⟩

/-- C2 amended: for every registered transform whose invocation throws,
improveWith (and improve) return improvementType none, improvedMessage
equal to originalMessage, and metadata.error present and equal to the
thrown value's message text (the Error message, or "Unknown error" for a
non-Error value) — hence non-empty unless an Error with an empty message
was thrown; the registry state is unchanged and, the functions being
total, no exception reaches the caller. -/
theorem claim2_transform_throw_recovered :
    (∀ (s : MessageImprover) (name msg : String) (ctx : Option ImproveContext)
        (f : Transform) (tv : ThrownValue),
      getT s.improvers name = some f → f msg ctx = Except.error tv →
      (s.improveWith name msg ctx).1 =
        { originalMessage := msg, improvedMessage := msg,
          improvementType := ImprovementType.none,
          metadata := ResultMetadata.err (thrownMessage tv) } ∧
      (s.improveWith name msg ctx).2 = s) ∧
    (∀ (s : MessageImprover) (msg : String) (ctx : Option ImproveContext)
        (f : Transform) (tv : ThrownValue),
      getT s.improvers s.activeImprover = some f → f msg ctx = Except.error tv →
      (s.improve msg ctx).1 =
        { originalMessage := msg, improvedMessage := msg,
          improvementType := ImprovementType.none,
          metadata := ResultMetadata.err (thrownMessage tv) }) := by
  constructor
  · intro s name msg ctx f tv hf hthrow
    constructor <;> simp [MessageImprover.improveWith, hf, hthrow]
  · intro s msg ctx f tv hf hthrow
    simp [MessageImprover.improve, hf, hthrow]

/-- Registry with an additional transform that throws an Error with message
"boom". -/
def badRegistry : MessageImprover := MessageImprover.new.register "bad" boomT

/-- Same registry with "bad" selected as the active improver. -/
def badActiveRegistry : MessageImprover := (badRegistry.setActive "bad").2

/-- Witness for C2: the throwing transform "bad", through improveWith and,
once active, through improve. -/
theorem claim2_witness :
    ((badRegistry.improveWith "bad" "x" Option.none).1 =
      { originalMessage := "x", improvedMessage := "x",
        improvementType := ImprovementType.none,
        metadata := ResultMetadata.err "boom" } ∧
    (badRegistry.improveWith "bad" "x" Option.none).2 = badRegistry) ∧
    (badActiveRegistry.improve "x" Option.none).1 =
      { originalMessage := "x", improvedMessage := "x",
        improvementType := ImprovementType.none,
        metadata := ResultMetadata.err "boom" } :=
  ⟨claim2_transform_throw_recovered.1 badRegistry "bad" "x" Option.none boomT
      (ThrownValue.errorObj "boom") rfl rfl,
   claim2_transform_throw_recovered.2 badActiveRegistry "x" Option.none boomT
      (ThrownValue.errorObj "boom") rfl rfl⟩

/-- Registry states reachable from the constructor through the public
mutating operations. -/
inductive ReachableImprover : MessageImprover → Prop
  | init : ReachableImprover MessageImprover.new
  | register (s : MessageImprover) (n : String) (f : Transform) :
      ReachableImprover s → ReachableImprover (s.register n f)
  | remove (s : MessageImprover) (n : String) :
      ReachableImprover s → ReachableImprover (s.remove n).2
  | setActive (s : MessageImprover) (n : String) :
      ReachableImprover s → ReachableImprover (s.setActive n).2

theorem reachable_invariant (s : MessageImprover) (h : ReachableImprover s) :
    s.existsB "default" = true ∧ s.existsB s.activeImprover = true := by
  induction h with
  | init => exact ⟨by decide, by decide⟩
  | register s n f _ ih =>
    constructor
    · simp only [MessageImprover.register, MessageImprover.existsB] at *
      simp [hasKey_setEntry, ih.1]
    · simp only [MessageImprover.register, MessageImprover.existsB] at *
      simp [hasKey_setEntry, ih.2]
  | remove s n _ ih =>
    by_cases hnd : n = "default"
    · subst hnd
      simpa [MessageImprover.remove] using ih
    · have hb : (n == "default") = false := by simp [hnd]
      have hdn : "default" ≠ n := Ne.symm hnd
      by_cases han : s.activeImprover = n
      · have han' : (s.activeImprover == n) = true := by simp [han]
        constructor <;>
          · simp only [MessageImprover.remove, hb, Bool.false_eq_true, if_false,
              han', if_true, MessageImprover.existsB]
            exact hasKey_delEntry_of_ne _ _ _ hdn ih.1
      · have han' : (s.activeImprover == n) = false := by simp [han]
        constructor
        · simp only [MessageImprover.remove, hb, Bool.false_eq_true, if_false,
            han', MessageImprover.existsB]
          exact hasKey_delEntry_of_ne _ _ _ hdn ih.1
        · simp only [MessageImprover.remove, hb, Bool.false_eq_true, if_false,
            han', MessageImprover.existsB]
          exact hasKey_delEntry_of_ne _ _ _ han ih.2
  | setActive s n _ ih =>
    by_cases hk : hasKey s.improvers n = true
    · constructor
      · simp only [MessageImprover.setActive, hk, if_true, MessageImprover.existsB]
        exact ih.1
      · simp only [MessageImprover.setActive, hk, if_true, MessageImprover.existsB]
    · have hk' : hasKey s.improvers n = false := by
        cases hx : hasKey s.improvers n
        · rfl
        · exact absurd hx hk
      simpa [MessageImprover.setActive, hk'] using ih

/-- C5: in every registry state reachable through the public operations the
active name references an existing entry, and removing the currently
active non-"default" name resets the active name to "default". -/
theorem claim5_active_references_entry :
    (∀ s : MessageImprover, ReachableImprover s →
      s.existsB s.getActive = true) ∧
    (∀ (s : MessageImprover) (n : String), n ≠ "default" → s.getActive = n →
      ((s.remove n).2).getActive = "default") := by
  constructor
  · intro s h
    exact (reachable_invariant s h).2
  · intro s n hnd hact
    have hb : (n == "default") = false := by simp [hnd]
    have han : (s.activeImprover == n) = true := by
      simp [MessageImprover.getActive] at hact
      simp [hact]
    simp [MessageImprover.remove, MessageImprover.getActive, hb, han]

/-- Witness for C5: the freshly constructed registry satisfies the invariant,
and removing the freshly activated name "shout" resets the active name. -/
theorem claim5_witness :
    MessageImprover.new.existsB MessageImprover.new.getActive = true ∧
    ((((((MessageImprover.new.register "shout" upperT).setActive "shout").2).remove
        "shout").2)).getActive = "default" :=
  ⟨claim5_active_references_entry.1 MessageImprover.new ReachableImprover.init,
   claim5_active_references_entry.2 (((MessageImprover.new.register "shout"
      upperT).setActive "shout").2) "shout" (by decide) rfl⟩

/-- The default transform exactly as the claim sentence describes it, written
for the refinement comparison: trim, capitalize the first character, then
append a period whenever the text does not already end in a terminal
punctuation character. -/
def defaultClaimDescription (message : String) : String :=
  let t := capitalizeFirst (jsTrim message)
  if endsWithTerminalPunct t then t else t ++ "."

/-- C7, as stated, is false on the empty input: the trimmed empty text does
not end in terminal punctuation, so the claim predicts ".", while the
source early-returns the empty string before appending anything. -/
theorem claim7_counterexample :
    defaultBody "" = "" ∧ defaultClaimDescription "" = "." ∧
    ¬ defaultBody "" = defaultClaimDescription "" := by decide

theorem length_beq_zero_eq_false_of_ne_empty (t : String) (h : t ≠ "") :
    (t.length == 0) = false := by
  cases t with
  | mk l =>
    cases l with
    | nil => exact absurd (by decide) h
    | cons c cs => rfl

/-- C7 amended: for every input whose trimmed text is nonempty, the default
transform agrees with the claimed description (trim, capitalize the first
character, append a period when the text does not already end in '.', '!'
or '?'); in particular it maps "hi there" to "Hi there.". On an input
trimming to empty it returns the empty string instead (see C10). -/
theorem claim7_default_transform (s : String) (h : jsTrim s ≠ "") :
    defaultBody s = defaultClaimDescription s ∧
    defaultBody "hi there" = "Hi there." := by
  constructor
  · have hlen := length_beq_zero_eq_false_of_ne_empty _ h
    simp only [defaultBody, defaultClaimDescription, hlen, Bool.false_eq_true,
      if_false]
  · decide

/-- Witness for C7 at the input "hi there". -/
theorem claim7_witness :
    defaultBody "hi there" = defaultClaimDescription "hi there" ∧
    defaultBody "hi there" = "Hi there." :=
  claim7_default_transform "hi there" (by decide)

theorem jsTrim_eq_empty_of_whitespace (s : String)
    (h : ∀ c ∈ s.data, c.isWhitespace = true) : jsTrim s = "" := by
  have h1 : s.data.dropWhile Char.isWhitespace = [] :=
    List.dropWhile_eq_nil_iff.mpr h
  simp only [jsTrim, h1]
  decide

/-- C10: on an empty or all-whitespace input the three seed transform bodies
all return the empty string: the trimmed text is empty, the early return
fires, and neither capitalization nor punctuation appending happens. The
creative seed returns the empty string for every value of its random
draw. -/
theorem claim10_whitespace_inputs (s : String) (i : Fin 5)
    (h : ∀ c ∈ s.data, c.isWhitespace = true) :
    defaultBody s = "" ∧ professionalBody s = "" ∧ creativeBody i s = "" := by
  have ht : jsTrim s = "" := jsTrim_eq_empty_of_whitespace s h
  refine ⟨?_, ?_, ?_⟩ <;> simp [defaultBody, professionalBody, creativeBody, ht]

/-- Witness for C10 at the two-space input and random index 3. -/
theorem claim10_witness :
    defaultBody "  " = "" ∧ professionalBody "  " = "" ∧
    creativeBody 3 "  " = "" :=
  claim10_whitespace_inputs "  " 3 (by decide)

/-- A concrete orchestrator state as produced by the constructor: empty
conversation store, zero counter, not running, the singleton improver. -/
def testAgent : NANDA :=
  { conversations := [], messageCount := 0, isRunning := false,
    improver := MessageImprover.new, registryClient := { isRegistered := false } }

/-- A concrete inbound message for conversation "c1". -/
def msgA : Message :=
  { id := "m1", role := Role.user,
    content := [{ type := ContentType.text, content := "hello" }],
    timestamp := 0, conversationId := "c1" }

/-- A second concrete inbound message for conversation "c1". -/
def msgB : Message :=
  { id := "m2", role := Role.user,
    content := [{ type := ContentType.text, content := "again" }],
    timestamp := 0, conversationId := "c1" }

/-- C4: processMessage increments the message counter by exactly one for
every state, message, option record and timestamp: whether the transform
is resolved, skipped via options, unregistered or failing makes no
difference. -/
theorem claim4_messageCount_increment (st : NANDA) (m : Message)
    (opts : MessageProcessingOptions) (now : Nat) :
    ((st.processMessage m opts now).2).messageCount = st.messageCount + 1 := by
  simp only [NANDA.processMessage, NANDA.storeMessage]
  split <;> rfl

theorem getConv_setConv_self (l : List (String × Conversation)) (k : String)
    (v : Conversation) : getConv (setConv l k v) k = some v := by
  induction l with
  | nil => simp [setConv, getConv]
  | cons p rest ih =>
    by_cases hpk : p.1 = k
    · simp [setConv, getConv, hpk]
    · simp [setConv, getConv, hpk, ih]

/-- C8: a message for an unknown conversation id creates the conversation
with an empty message list and createdAt = updatedAt = now before the
append, so afterwards it holds exactly that message with both timestamps
equal to the append time; a second append to the same id yields the two
messages in arrival order with updatedAt refreshed, and with
non-decreasing clock readings updatedAt is at least createdAt. -/
theorem claim8_conversation_append (st : NANDA) (m1 m2 : Message) (cid : String)
    (t1 t2 : Nat) (h1 : m1.conversationId = cid) (h2 : m2.conversationId = cid)
    (habs : getConv st.conversations cid = Option.none) (hle : t1 ≤ t2) :
    getConv ((st.storeMessage m1 t1).conversations) cid =
      some { id := cid, messages := [m1], createdAt := t1, updatedAt := t1 } ∧
    getConv (((st.storeMessage m1 t1).storeMessage m2 t2).conversations) cid =
      some { id := cid, messages := [m1, m2], createdAt := t1, updatedAt := t2 } ∧
    (∀ c : Conversation,
      getConv (((st.storeMessage m1 t1).storeMessage m2 t2).conversations) cid =
        some c → c.createdAt ≤ c.updatedAt) := by
  have hc1 : getConv ((st.storeMessage m1 t1).conversations) cid =
      some { id := cid, messages := [m1], createdAt := t1, updatedAt := t1 } := by
    simp [NANDA.storeMessage, h1, habs, getConv_setConv_self]
  obtain ⟨st1, hst1⟩ : ∃ st1, st.storeMessage m1 t1 = st1 := ⟨_, rfl⟩
  rw [hst1] at hc1
  have hc2 : getConv ((st1.storeMessage m2 t2).conversations) cid =
      some { id := cid, messages := [m1, m2], createdAt := t1, updatedAt := t2 } := by
    simp [NANDA.storeMessage, h2, hc1, getConv_setConv_self]
  rw [hst1]
  refine ⟨hc1, hc2, ?_⟩
  intro c hc
  rw [hc2] at hc
  cases hc
  exact hle

/-- Witness for C8: two messages appended to the initially absent
conversation "c1" at times 1 and 2. -/
theorem claim8_witness :
    getConv ((testAgent.storeMessage msgA 1).conversations) "c1" =
      some { id := "c1", messages := [msgA], createdAt := 1, updatedAt := 1 } ∧
    getConv (((testAgent.storeMessage msgA 1).storeMessage msgB 2).conversations) "c1" =
      some { id := "c1", messages := [msgA, msgB], createdAt := 1, updatedAt := 2 } ∧
    (1 : Nat) ≤ 2 := by
  have hthm := claim8_conversation_append testAgent msgA msgB "c1" 1 2 rfl rfl rfl
    (by decide)
  exact ⟨hthm.1, hthm.2.1, hthm.2.2 _ hthm.2.1⟩

/-- Read whether a start outcome completed and left the agent running. -/
def startedRunning (r : Except ThrownValue NANDA) : Bool :=
  match r with
  | Except.ok st => st.isRunning
  | Except.error _ => false

/-- C6: RegistryClient.register converts every rejected request and every
non-200 resolved status into a boolean false instead of an exception, so
when the two collaborators start successfully, NANDA.start completes with
Except.ok and the agent running for every possible registration outcome. -/
theorem claim6_start_survives_registry_failure (st : NANDA) (tv : ThrownValue)
    (status : Nat) (net : AxiosOutcome) (hs : status ≠ 200) :
    (st.registryClient.register (AxiosOutcome.failure tv)).1 = false ∧
    (st.registryClient.register (AxiosOutcome.response status)).1 = false ∧
    startedRunning (st.start (Except.ok ()) (Except.ok ()) net) = true := by
  refine ⟨rfl, ?_, ?_⟩
  · simp [RegistryClient.register, hs]
  · rfl

/-- Witness for C6: a connection failure and a 503 response on the concrete
agent state. -/
theorem claim6_witness :
    (testAgent.registryClient.register
        (AxiosOutcome.failure ThrownValue.nonError)).1 = false ∧
    (testAgent.registryClient.register (AxiosOutcome.response 503)).1 = false ∧
    startedRunning (testAgent.start (Except.ok ()) (Except.ok ())
        (AxiosOutcome.failure ThrownValue.nonError)) = true :=
  claim6_start_survives_registry_failure testAgent ThrownValue.nonError 503
    (AxiosOutcome.failure ThrownValue.nonError) (by decide)

end NandaSdk
